import Mathlib

/-!
A shallow embedding of the fixture-import engine of the `fixturer` Go package
(`fixturer.go`, current version: `ImportFixtures` / `importYmlFixtures` /
`pushInsertQueriesFromYmlToChannel` / `loadParsedData` / `LoadDbSchema` /
`RecreateDatabaseWithSchemaAndImportFixtures` / `SetInsertGoroutinesCnt` /
`ensureDbConnected`), together with theorems settling the specification claims.

External collaborators declared out of scope by the specification (the YAML text
parser and the `squirrel` SQL statement builder) appear only at their interface
boundary: a fixture file's decoded content is an `Option (List Record)`
(`none` = malformed), and the builder's row-alignment capability is modelled
from the specification's words (see `addMapRow`).

Nondeterminism of the Go runtime is made explicit as parameters:
the iteration order of a Go map is an arbitrary duplicate-free enumeration of
its keys (`admissibleKeyOrder`, `Env.mapOrd`), and the interleaving of the
per-file parse goroutines is an arbitrary permutation of the file list
(the `schedule` argument, a sound linearization because every shared-state
write in a goroutine is a single mutex-protected map/slice update).
Injected failures of the database (`Env`, `SchemaEnv`) model the error paths
of `database/sql` calls.
-/

/-- A dynamically-typed scalar value of a fixture record
(string, number, boolean or null), as produced by the YAML capability. -/
inductive Val where
  | str : String → Val
  | int : Int → Val
  | bool : Bool → Val
  | null : Val
deriving DecidableEq, Repr

/-- One decoded fixture record: a field-name → value mapping
(`map[string]interface{}` in the source), embedded as an association list. -/
abbrev Record := List (String × Val)

/-- Go `strings.HasSuffix`: does `s` end with `suffixStr`? (character-level
suffix test on the strings' contents). -/
def hasSuffix (s suffixStr : String) : Bool :=
  suffixStr.data.isSuffixOf s.data

/-- Go `strings.TrimSuffix`: drops `suffixStr` when `s` ends with it, else `s`. -/
def trimSuffix (s suffixStr : String) : String :=
  if hasSuffix s suffixStr then s.dropRight suffixStr.length else s

/-- A directory entry as the discoverer sees it: a name, whether it is a
sub-directory, and the decoded content of the file (`none` when
`yaml.Unmarshal` fails on its bytes — the YAML parser is an external
capability, so decoding outcomes are part of the input). -/
structure YmlFile where
  name : String
  isDir : Bool
  content : Option (List Record)
deriving DecidableEq, Repr

/-- `getYmlFilesList` (fixturer.go:490-507): keep non-directory entries whose
name ends with `.yml`. -/
def getYmlFilesList (files : List YmlFile) : List YmlFile :=
  files.filter (fun f => !f.isDir && hasSuffix f.name ".yml")

/-- Field lookup inside one record (Go map read). -/
def lookupField (rec : Record) (k : String) : Option Val :=
  (rec.find? (fun kv => kv.1 == k)).map Prod.snd

/-- One slot of a row tuple: either a value or the statement builder's
explicit "no value supplied" marker for a field the record omits. -/
inductive Cell where
  | val : Val → Cell
  | absent : Cell
deriving DecidableEq, Repr

/-- The insertion batch built for one fixture file: target table, the
canonical column list, and one aligned value tuple per record
(a `squirrel.InsertBuilder` at the interface boundary). -/
structure InsertBuilder where
  table : String
  columns : List String
  rows : List (List Cell)
deriving DecidableEq, Repr

/-- Modelled from the spec: the external statement builder's `AddMap`
capability — "one value tuple per record aligned to that list, using an
explicit 'no value supplied' marker for any column absent from a given
record" (the `squirrel` builder is outside this repository). -/
def addMapRow (columns : List String) (rec : Record) : List Cell :=
  columns.map (fun c =>
    match lookupField rec c with
    | some v => Cell.val v
    | none => Cell.absent)

/-- All field names of all records of a file, in record order, with
duplicates (the key stream the source feeds into `allKeysMap`). -/
def allKeysJoin (data : List Record) : List String :=
  (data.map (fun rec => rec.map Prod.fst)).flatten

/-- Append `k` unless already present (first-occurrence deduplication step). -/
def insertIfNew (acc : List String) (k : String) : List String :=
  if k ∈ acc then acc else acc ++ [k]

/-- First-occurrence deduplication of a list. -/
def firstDedup (l : List String) : List String := l.foldl insertIfNew []

/-- The column list the specification describes: the union of all field
names across the file's records, in first-occurrence order. -/
def firstOccurrenceUnion (data : List Record) : List String :=
  firstDedup (allKeysJoin data)

/-- Admissible iteration orders of the Go map `allKeysMap`
(fixturer.go:599-610): each distinct key exactly once, in any order —
Go map iteration order is unspecified. -/
def admissibleKeyOrder (ord : List String) (data : List Record) : Prop :=
  ord.Nodup ∧ (∀ k ∈ ord, k ∈ allKeysJoin data) ∧ (∀ k ∈ allKeysJoin data, k ∈ ord)

instance (ord : List String) (data : List Record) :
    Decidable (admissibleKeyOrder ord data) := by
  unfold admissibleKeyOrder; infer_instance

/-- The batch construction of the parse goroutine body
(fixturer.go:586-616): decode (malformed → zero records), derive the table
name, collect the key set, and build one `InsertBuilder` with the keys as
columns (in map-iteration order `ord`) and one `AddMap` row per record. -/
def buildFileBatch (ord : List String) (f : YmlFile) : InsertBuilder :=
  let data := f.content.getD []
  { table := trimSuffix f.name ".yml"
    columns := ord
    rows := data.map (addMapRow ord) }

/- ### The Fixturer instance and its public configuration -/

/-- Default `insertGoroutinesCnt` (fixturer.go:399). -/
def InsertGoroutinesDefaultCnt : Int := 20

/-- The `Fixturer` struct (fixturer.go:381-390); `dbConnected` stands for
`db != nil`. -/
structure Fixturer where
  dbConnected : Bool
  dbConf : String
  schema : String
  fixturesPathYml : String
  recreateDatabase : Bool
  dbName : String
  dbParams : String
  insertGoroutinesCnt : Int
deriving DecidableEq, Repr

/-- `NewFixturer` (fixturer.go:411-423): `db` starts nil, the recreate flag is
resolved once from process configuration, goroutine count defaults. -/
def NewFixturer (recreateFlag : Bool) (dbConf schema fixturesPathYml dbName dbParams : String) :
    Fixturer :=
  { dbConnected := false
    dbConf := dbConf
    schema := schema
    fixturesPathYml := fixturesPathYml
    recreateDatabase := recreateFlag
    dbName := dbName
    dbParams := dbParams
    insertGoroutinesCnt := InsertGoroutinesDefaultCnt }

/-- A file-system access performed by the import engine. -/
inductive IoEvent where
  | dirList : String → IoEvent
  | fileRead : String → IoEvent
deriving DecidableEq, Repr

/-- A database statement issued by the import engine (`truncate t`,
`insertRows k` — the one multi-row INSERT built for insert-map key `k` —
and the FK-check / transaction control statements). `execQ` is one schema
DDL statement of `LoadDbSchema`. -/
inductive Stmt where
  | fkOff : Stmt
  | fkOn : Stmt
  | truncate : String → Stmt
  | beginTx : Stmt
  | commitTx : Stmt
  | rollbackTx : Stmt
  | insertRows : String → Stmt
  | execQ : String → Stmt
deriving DecidableEq, Repr

/-- `SetInsertGoroutinesCnt` (fixturer.go:426-432): panics (`none`) when
`cnt < 1`, else returns the receiver with the count set. The function
performs no file or database I/O on any path: its statement and I/O traces
are empty. -/
def SetInsertGoroutinesCnt (fx : Fixturer) (cnt : Int) :
    Option Fixturer × List Stmt × List IoEvent :=
  (if cnt < 1 then none else some { fx with insertGoroutinesCnt := cnt }, [], [])

/-- The connection-pool sizing applied by `db.SetMaxOpenConns` /
`db.SetMaxIdleConns`. -/
structure PoolConfig where
  maxOpenConns : Int
  maxIdleConns : Int
deriving DecidableEq, Repr

/-- Injected outcomes of the `database/sql` calls made during an import, plus
the (unspecified) iteration order `mapOrd` of the Go map `insertMap` in the
load loop. -/
structure Env where
  connectFails : Bool
  fkDisableFails : Bool
  truncFails : List String
  beginFails : Bool
  commitFails : Bool
  insertFails : List String
  mapOrd : List String
deriving DecidableEq, Repr

/-- `ensureDbConnected` (fixturer.go:634-653): no-op when already connected;
otherwise opens a connection whose pool limits are both set to
`insertGoroutinesCnt` (the only thing the parallelism knob governs). -/
def ensureDbConnected (env : Env) (fx : Fixturer) :
    Except String (Fixturer × Option PoolConfig) :=
  if fx.dbConnected then Except.ok (fx, none)
  else if env.connectFails then Except.error "connect failed"
  else Except.ok ({ fx with dbConnected := true },
    some { maxOpenConns := fx.insertGoroutinesCnt, maxIdleConns := fx.insertGoroutinesCnt })

/- ### Process-global parse state and the parse phase -/

/-- The package-level mutable state (fixturer.go:402-407): the table-name
list recorded by the last completed parse phase, the set of directories
already parsed, and the filename → batch map. -/
structure GlobalState where
  finishedTablseNames : List String
  finishedParsedDirs : List String
  insertMap : List (String × InsertBuilder)
deriving DecidableEq, Repr

/-- Go map assignment `m[k] = v` on the association-list embedding of
`insertMap`: replace the existing binding of `k`, else add one. -/
def mapInsert : List (String × InsertBuilder) → String → InsertBuilder →
    List (String × InsertBuilder)
  | [], k, v => [(k, v)]
  | a :: rest, k, v => if a.1 = k then (k, v) :: rest else a :: mapInsert rest k v

/-- Go map read `m[k]` on the association-list embedding of `insertMap`. -/
def mapLookup : List (String × InsertBuilder) → String → Option InsertBuilder
  | [], _ => none
  | a :: rest, k => if a.1 = k then some a.2 else mapLookup rest k

/-- What one parse goroutine (fixturer.go:579-623) contributes: the table
name appended to `tablesNames`, the `insertMap` entry published under the
file name, the file read it performed, and its completion signal — the
deferred `wg.Done()` fires exactly once on every path, including the early
return for a name without the `.yml` suffix (which happens before the file
is read). -/
structure TaskResult where
  publishedTable : Option String
  publishedBatch : Option (String × InsertBuilder)
  fileReads : List String
  doneSignals : Nat
deriving DecidableEq, Repr

/-- The parse goroutine body, with `ord` the iteration order of its
`allKeysMap`. -/
def parseTask (ord : List String) (f : YmlFile) : TaskResult :=
  if hasSuffix f.name ".yml" = false then
    { publishedTable := none, publishedBatch := none, fileReads := [], doneSignals := 1 }
  else
    { publishedTable := some (trimSuffix f.name ".yml")
      publishedBatch := some (f.name, buildFileBatch ord f)
      fileReads := [f.name]
      doneSignals := 1 }

/-- Accumulated shared state while the parse goroutines run: the local
`tablesNames` slice, the global `insertMap`, the file reads performed, and
the count of `wg.Done()` signals received. -/
structure ParseAcc where
  tablesNames : List String
  insMap : List (String × InsertBuilder)
  reads : List String
  done : Nat
deriving DecidableEq, Repr

/-- Apply one goroutine's contribution to the shared state (each write is a
single mutex-protected critical section in the source). -/
def parseStep (acc : ParseAcc) (p : YmlFile × List String) : ParseAcc :=
  let r := parseTask p.2 p.1
  { tablesNames := acc.tablesNames ++ r.publishedTable.toList
    insMap :=
      match r.publishedBatch with
      | some kv => mapInsert acc.insMap kv.1 kv.2
      | none => acc.insMap
    reads := acc.reads ++ r.fileReads
    done := acc.done + r.doneSignals }

/-- Result of the fan-out/fan-in parse phase: the global state after the
barrier, the file reads performed, the number of completion signals
received, and the number of tasks launched (`wg.Add(len(files))`). -/
structure ParseOutcome where
  g : GlobalState
  fileReads : List String
  doneCount : Nat
  launched : Nat
deriving DecidableEq, Repr

/-- `pushInsertQueriesFromYmlToChannel` (fixturer.go:571-632): launch one
goroutine per file, fold their contributions in scheduling order
(`schedule`: the files paired with each goroutine's key-map iteration
order, in an arbitrary interleaving), wait on the barrier, then REPLACE
`finishedTablseNames` with the local `tablesNames` slice. -/
def pushInsertQueriesFromYmlToChannel (files : List YmlFile)
    (schedule : List (YmlFile × List String)) (g : GlobalState) : ParseOutcome :=
  let acc0 : ParseAcc := { tablesNames := [], insMap := g.insertMap, reads := [], done := 0 }
  let acc := schedule.foldl parseStep acc0
  { g :=
      { finishedTablseNames := acc.tablesNames
        finishedParsedDirs := g.finishedParsedDirs
        insertMap := acc.insMap }
    fileReads := acc.reads
    doneCount := acc.done
    launched := files.length }

/- ### Database state and the transactional load phase -/

/-- Row counts per table, as an association list. -/
abbrev DbState := List (String × Nat)

/-- Rows currently in table `t` (0 when the table was never written). -/
def getRows : DbState → String → Nat
  | [], _ => 0
  | (u, m) :: rest, t => if u = t then m else getRows rest t

/-- Set the row count of table `t`. -/
def setRows : DbState → String → Nat → DbState
  | [], t, n => [(t, n)]
  | (u, m) :: rest, t, n =>
      if u = t then (u, n) :: rest else (u, m) :: setRows rest t n

/-- Add `n` rows to table `t`. -/
def addRows (db : DbState) (t : String) (n : Nat) : DbState :=
  setRows db t (getRows db t + n)

/-- The TRUNCATE loop of `loadParsedData` (fixturer.go:538-544), executed on
the raw connection (NOT inside the transaction, which begins only
afterwards); stops at the first failing TRUNCATE, returning its table. -/
def runTruncates (env : Env) (db : DbState) : List String → Option String × DbState × List Stmt
  | [] => (none, db, [])
  | t :: ts =>
      if t ∈ env.truncFails then (some t, db, [Stmt.truncate t])
      else
        let r := runTruncates env (setRows db t 0) ts
        (r.1, r.2.1, Stmt.truncate t :: r.2.2)

/-- The insert loop of `loadParsedData` (fixturer.go:552-562): iterate
`insertMap` in map order `mapOrd`; a failing `ToSql`/`Exec` is only printed
and the loop continues (the statement is still issued but adds no rows). -/
def txInsertLoop (env : Env) (g : GlobalState) (db : DbState) :
    List String → DbState × List Stmt
  | [] => (db, [])
  | k :: ks =>
      match mapLookup g.insertMap k with
      | none => txInsertLoop env g db ks
      | some qb =>
          if k ∈ env.insertFails then
            let r := txInsertLoop env g db ks
            (r.1, Stmt.insertRows k :: r.2)
          else
            let r := txInsertLoop env g (addRows db qb.table qb.rows.length) ks
            (r.1, Stmt.insertRows k :: r.2)

/-- `loadParsedData` (fixturer.go:531-569). Disable FK checks (on failure:
return before the re-enable defer is registered); TRUNCATE every table in
`finishedTablseNames` on the raw connection; `Begin` a transaction with
deferred `Rollback`; run the insert loop inside it; `Commit`. Deferred
statements run LIFO on exit: `Rollback` then the FK re-enable — wait, the
FK re-enable defer (line 536) was registered before the `Rollback` defer
(line 550), so on exit `Rollback` runs first and the FK re-enable last.
On commit failure the transaction's inserts are rolled back, leaving the
database as it stood after the truncations. -/
def loadParsedData (env : Env) (g : GlobalState) (db : DbState) :
    Except String Unit × DbState × List Stmt :=
  if env.fkDisableFails then
    (Except.error "disable FK checks failed", db, [Stmt.fkOff])
  else
    match runTruncates env db g.finishedTablseNames with
    | (some t, db1, tr) =>
        (Except.error ("TRUNCATE " ++ t ++ " failed"), db1,
          Stmt.fkOff :: tr ++ [Stmt.fkOn])
    | (none, db1, tr) =>
        if env.beginFails then
          (Except.error "begin failed", db1,
            Stmt.fkOff :: tr ++ [Stmt.beginTx, Stmt.fkOn])
        else
          let r := txInsertLoop env g db1 env.mapOrd
          if env.commitFails then
            (Except.error "commit failed", db1,
              Stmt.fkOff :: tr ++ [Stmt.beginTx] ++ r.2 ++
                [Stmt.commitTx, Stmt.rollbackTx, Stmt.fkOn])
          else
            (Except.ok (), r.1,
              Stmt.fkOff :: tr ++ [Stmt.beginTx] ++ r.2 ++
                [Stmt.commitTx, Stmt.rollbackTx, Stmt.fkOn])

/-- The observable outcome of one import run: the returned result, the
process-global state, the database state, and the file-system / SQL
traces. -/
structure RunResult where
  res : Except String Unit
  g : GlobalState
  db : DbState
  io : List IoEvent
  sql : List Stmt
deriving Repr

/-- `importYmlFixtures` (fixturer.go:509-529): when the directory is already
in `finishedParsedDirs`, call `loadParsedData` and DISCARD its error
(`return nil`); otherwise run the parse phase, record the directory, and
return `loadParsedData`'s result. -/
def importYmlFixtures (env : Env) (dir : String) (files : List YmlFile)
    (schedule : List (YmlFile × List String)) (g : GlobalState) (db : DbState) : RunResult :=
  if dir ∈ g.finishedParsedDirs then
    let r := loadParsedData env g db
    { res := Except.ok (), g := g, db := r.2.1, io := [], sql := r.2.2 }
  else
    let po := pushInsertQueriesFromYmlToChannel files schedule g
    let g' := { po.g with finishedParsedDirs := po.g.finishedParsedDirs ++ [dir] }
    let r := loadParsedData env g' db
    { res := r.1, g := g', db := r.2.1
      io := po.fileReads.map IoEvent.fileRead, sql := r.2.2 }

/-- `ImportFixtures` (fixturer.go:448-464): list the fixture directory
(always — before any cache consultation; `none` = `ReadDir` error, a hard
failure), ensure the connection, and delegate to `importYmlFixtures`. -/
def ImportFixtures (env : Env) (fx : Fixturer) (dirListing : Option (List YmlFile))
    (schedule : List (YmlFile × List String)) (g : GlobalState) (db : DbState) : RunResult :=
  match dirListing with
  | none =>
      { res := Except.error "ReadDir failed", g := g, db := db
        io := [IoEvent.dirList fx.fixturesPathYml], sql := [] }
  | some entries =>
      match ensureDbConnected env fx with
      | Except.error e =>
          { res := Except.error e, g := g, db := db
            io := [IoEvent.dirList fx.fixturesPathYml], sql := [] }
      | Except.ok _ =>
          let r := importYmlFixtures env fx.fixturesPathYml (getYmlFilesList entries)
            schedule g db
          { r with io := IoEvent.dirList fx.fixturesPathYml :: r.io }

/- ### Schema load and the composed pipeline -/

/-- Injected outcomes for `LoadDbSchema`: connection, `Begin`, the FK
disable, the schema file read (`none` = `ReadFile` error), individual DDL
statement failures, and `Commit`. -/
structure SchemaEnv where
  connectFails : Bool
  beginFails : Bool
  fkDisableFails : Bool
  schemaFile : Option String
  execFails : List String
  commitFails : Bool
deriving Repr

/-- Split the schema file on `;`, trim each piece, keep the non-empty ones
(fixturer.go:680-685). -/
def schemaQueries (file : String) : List String :=
  ((file.splitOn ";").map String.trim).filter (fun q => q.length ≠ 0)

/-- Execute the schema statements in order, stopping at the first failure;
returns the failing statement (if any) and the statements issued. -/
def execSchemaQueries (env : SchemaEnv) : List String → Option String × List String
  | [] => (none, [])
  | q :: qs =>
      if q ∈ env.execFails then (some q, [q])
      else
        let r := execSchemaQueries env qs
        (r.1, q :: r.2)

/-- `LoadDbSchema` (fixturer.go:661-695). Connect; `Begin` with deferred
`Rollback`; disable FK checks inside the transaction (on failure: return
before the re-enable defer is registered, so only the rollback runs); read
and split the schema file; execute each statement, returning at the first
failure; `Commit`. Deferred calls run LIFO on exit: the FK re-enable
(registered second) first, then `Rollback`. -/
def LoadDbSchema (env : SchemaEnv) : Except String Unit × List Stmt :=
  if env.connectFails then (Except.error "connect failed", [])
  else if env.beginFails then (Except.error "begin failed", [])
  else if env.fkDisableFails then
    (Except.error "disable FK checks failed", [Stmt.fkOff, Stmt.rollbackTx])
  else
    match env.schemaFile with
    | none =>
        (Except.error "read schema failed", [Stmt.fkOff, Stmt.fkOn, Stmt.rollbackTx])
    | some file =>
        let r := execSchemaQueries env (schemaQueries file)
        match r.1 with
        | some q =>
            (Except.error ("exec failed: " ++ q),
              Stmt.fkOff :: r.2.map Stmt.execQ ++ [Stmt.fkOn, Stmt.rollbackTx])
        | none =>
            if env.commitFails then
              (Except.error "commit failed",
                Stmt.fkOff :: r.2.map Stmt.execQ ++
                  [Stmt.commitTx, Stmt.fkOn, Stmt.rollbackTx])
            else
              (Except.ok (),
                Stmt.fkOff :: r.2.map Stmt.execQ ++
                  [Stmt.commitTx, Stmt.fkOn, Stmt.rollbackTx])

/-- One step of the composed recreate→schema→import pipeline. -/
inductive PipeStep where
  | recreateStep : PipeStep
  | schemaStep : PipeStep
  | importStep : PipeStep
deriving DecidableEq, Repr

/-- `RecreateDatabaseWithSchemaAndImportFixtures` (fixturer.go:434-445):
when the construction-time `recreateDatabase` flag is set, run recreate,
then schema load, then import, stopping at the first failing step (the
steps already run stay committed — there is no cross-step rollback, which
the returned step list records); when the flag is clear, run only the
import. The three step outcomes are the abstracted results of
`RecreateDatabase`, `LoadDbSchema` and `ImportFixtures`. -/
def RecreateDatabaseWithSchemaAndImportFixtures (fx : Fixturer)
    (recreateRes schemaRes importRes : Except String Unit) :
    Except String Unit × List PipeStep :=
  if fx.recreateDatabase = true then
    match recreateRes with
    | Except.error e => (Except.error e, [PipeStep.recreateStep])
    | Except.ok _ =>
        match schemaRes with
        | Except.error e => (Except.error e, [PipeStep.recreateStep, PipeStep.schemaStep])
        | Except.ok _ =>
            (importRes, [PipeStep.recreateStep, PipeStep.schemaStep, PipeStep.importStep])
  else (importRes, [PipeStep.importStep])

/- ### Derived observation functions used by the theorems -/

/-- Zero every listed table's row count (the semantic effect of the TRUNCATE
loop when no TRUNCATE fails). -/
def truncAllTables : DbState → List String → DbState
  | db, [] => db
  | db, t :: ts => truncAllTables (setRows db t 0) ts

/-- How many rows the insert-map entry under key `k` contributes to table `t`
during the load loop (0 when the entry is missing, targets another table,
or its execution fails). -/
def rowContribution (env : Env) (g : GlobalState) (t : String) (k : String) : Nat :=
  match mapLookup g.insertMap k with
  | some qb => if k ∈ env.insertFails then 0 else if qb.table = t then qb.rows.length else 0
  | none => 0

/-- Total rows the load loop inserts into table `t`. -/
def insertedInto (env : Env) (g : GlobalState) (t : String) : Nat :=
  (env.mapOrd.map (rowContribution env g t)).sum

/-- The tables named by the TRUNCATE statements of a trace, in order. -/
def truncatesOf (sql : List Stmt) : List String :=
  sql.filterMap (fun s =>
    match s with
    | Stmt.truncate t => some t
    | _ => none)

/-- The file names of a parse schedule. -/
def scheduleNames (schedule : List (YmlFile × List String)) : List String :=
  schedule.map (fun p => p.1.name)

/-- The table names a parse schedule records into `tablesNames`. -/
def scheduleTables (schedule : List (YmlFile × List String)) : List String :=
  schedule.filterMap (fun p => (parseTask p.2 p.1).publishedTable)
/- ### Basic lemmas about the column union -/

theorem insertIfNew_nodup {acc : List String} {k : String} (h : acc.Nodup) :
    (insertIfNew acc k).Nodup := by
  unfold insertIfNew
  split
  · exact h
  · next hk => simpa [List.nodup_append] using ⟨h, fun hmem => hk hmem⟩

theorem mem_insertIfNew {acc : List String} {k x : String} :
    x ∈ insertIfNew acc k ↔ x ∈ acc ∨ x = k := by
  unfold insertIfNew
  split
  · next hk =>
    constructor
    · exact fun h => Or.inl h
    · rintro (h | rfl)
      · exact h
      · exact hk
  · simp [List.mem_append]

theorem foldl_insertIfNew_nodup (l : List String) :
    ∀ acc : List String, acc.Nodup → (l.foldl insertIfNew acc).Nodup := by
  induction l with
  | nil => intro acc h; simpa using h
  | cons k l ih => intro acc h; exact ih _ (insertIfNew_nodup h)

theorem mem_foldl_insertIfNew (l : List String) :
    ∀ acc : List String, ∀ x, x ∈ l.foldl insertIfNew acc ↔ x ∈ acc ∨ x ∈ l := by
  induction l with
  | nil => intro acc x; simp
  | cons k l ih =>
    intro acc x
    rw [List.foldl_cons, ih, mem_insertIfNew]
    constructor
    · rintro ((h | rfl) | h)
      · exact Or.inl h
      · exact Or.inr (List.mem_cons_self _ _)
      · exact Or.inr (List.mem_cons_of_mem _ h)
    · rintro (h | h)
      · exact Or.inl (Or.inl h)
      · rcases List.mem_cons.mp h with rfl | h
        · exact Or.inl (Or.inr rfl)
        · exact Or.inr h

theorem firstDedup_nodup (l : List String) : (firstDedup l).Nodup :=
  foldl_insertIfNew_nodup l [] List.nodup_nil

theorem mem_firstDedup {l : List String} {x : String} :
    x ∈ firstDedup l ↔ x ∈ l := by
  unfold firstDedup
  rw [mem_foldl_insertIfNew]
  simp

theorem firstOccurrenceUnion_nodup (data : List Record) :
    (firstOccurrenceUnion data).Nodup := firstDedup_nodup _

theorem mem_firstOccurrenceUnion {data : List Record} {x : String} :
    x ∈ firstOccurrenceUnion data ↔ x ∈ allKeysJoin data := mem_firstDedup

/-- Any admissible Go-map iteration order of the key set is a permutation of
the specification's first-occurrence union. -/
theorem admissibleKeyOrder_perm {ord : List String} {data : List Record}
    (h : admissibleKeyOrder ord data) :
    ord.Perm (firstOccurrenceUnion data) := by
  rcases h with ⟨hnd, hsub, hsup⟩
  refine (List.perm_ext_iff_of_nodup hnd (firstOccurrenceUnion_nodup data)).mpr ?_
  intro a
  rw [mem_firstOccurrenceUnion]
  exact ⟨fun ha => hsub a ha, fun ha => hsup a ha⟩


/- ### Lemmas: the parse phase -/

/-- Every goroutine signals completion exactly once, on every code path
(the `wg.Done()` is deferred). -/
theorem parseTask_doneSignals (ord : List String) (f : YmlFile) :
    (parseTask ord f).doneSignals = 1 := by
  unfold parseTask
  split <;> rfl

theorem parse_foldl_done (schedule : List (YmlFile × List String)) :
    ∀ acc : ParseAcc, (schedule.foldl parseStep acc).done = acc.done + schedule.length := by
  induction schedule with
  | nil => intro acc; simp
  | cons p rest ih =>
    intro acc
    rw [List.foldl_cons, ih]
    simp [parseStep, parseTask_doneSignals]
    omega

theorem parse_foldl_tablesNames (schedule : List (YmlFile × List String)) :
    ∀ acc : ParseAcc,
      (schedule.foldl parseStep acc).tablesNames =
        acc.tablesNames ++ schedule.filterMap (fun p => (parseTask p.2 p.1).publishedTable) := by
  induction schedule with
  | nil => intro acc; simp
  | cons p rest ih =>
    intro acc
    rw [List.foldl_cons, ih]
    cases hp : (parseTask p.2 p.1).publishedTable with
    | none => simp [parseStep, hp]
    | some t => simp [parseStep, hp]

theorem parse_foldl_reads (schedule : List (YmlFile × List String)) :
    ∀ acc : ParseAcc,
      (schedule.foldl parseStep acc).reads =
        acc.reads ++ (schedule.map (fun p => (parseTask p.2 p.1).fileReads)).flatten := by
  induction schedule with
  | nil => intro acc; simp
  | cons p rest ih =>
    intro acc
    rw [List.foldl_cons, ih]
    simp [parseStep]

theorem parse_foldl_dirs_unchanged (files : List YmlFile)
    (schedule : List (YmlFile × List String)) (g : GlobalState) :
    (pushInsertQueriesFromYmlToChannel files schedule g).g.finishedParsedDirs =
      g.finishedParsedDirs := rfl

/- ### Lemmas: the insertMap association list -/

theorem mapLookup_mapInsert_self (m : List (String × InsertBuilder))
    (k : String) (v : InsertBuilder) :
    mapLookup (mapInsert m k v) k = some v := by
  induction m with
  | nil => simp [mapInsert, mapLookup]
  | cons a rest ih =>
    by_cases ha : a.1 = k
    · simp [mapInsert, mapLookup, ha]
    · simp [mapInsert, mapLookup, ha, ih]

theorem mapLookup_mapInsert_ne (m : List (String × InsertBuilder))
    (k k' : String) (v : InsertBuilder) (h : k' ≠ k) :
    mapLookup (mapInsert m k v) k' = mapLookup m k' := by
  have hk : ¬ (k = k') := fun hc => h hc.symm
  induction m with
  | nil => simp [mapInsert, mapLookup, hk]
  | cons a rest ih =>
    by_cases ha : a.1 = k
    · have ha'' : ¬ (a.1 = k') := ha ▸ hk
      simp [mapInsert, mapLookup, ha, hk, ha'']
    · by_cases hx : a.1 = k'
      · simp [mapInsert, mapLookup, ha, hx, h]
      · simp [mapInsert, mapLookup, ha, hx, ih]

theorem mapLookup_mem {m : List (String × InsertBuilder)} {k : String}
    {v : InsertBuilder} (h : mapLookup m k = some v) : (k, v) ∈ m := by
  induction m with
  | nil => simp [mapLookup] at h
  | cons a rest ih =>
    by_cases ha : a.1 = k
    · rw [mapLookup, if_pos ha] at h
      rcases a with ⟨a1, a2⟩
      obtain rfl : a2 = v := by simpa using h
      obtain rfl : a1 = k := ha
      exact List.mem_cons_self _ _
    · rw [mapLookup, if_neg ha] at h
      exact List.mem_cons_of_mem _ (ih h)

theorem parseTask_publishedBatch_yml {f : YmlFile} (ord : List String)
    (h : hasSuffix f.name ".yml" = true) :
    (parseTask ord f).publishedBatch = some (f.name, buildFileBatch ord f) := by
  simp [parseTask, h]

theorem parseTask_publishedTable_yml {f : YmlFile} (ord : List String)
    (h : hasSuffix f.name ".yml" = true) :
    (parseTask ord f).publishedTable = some (trimSuffix f.name ".yml") := by
  simp [parseTask, h]

/-- A goroutine that publishes a batch publishes it under its own file name. -/
theorem parseTask_publishedBatch_key {f : YmlFile} {ord : List String}
    {kv : String × InsertBuilder}
    (h : (parseTask ord f).publishedBatch = some kv) : kv.1 = f.name := by
  unfold parseTask at h
  split at h
  · simp at h
  · simp only [Option.some.injEq] at h
    subst h
    rfl

theorem parseStep_insMap_none (acc : ParseAcc) (p : YmlFile × List String)
    (hb : (parseTask p.2 p.1).publishedBatch = none) :
    (parseStep acc p).insMap = acc.insMap := by
  simp [parseStep, hb]

theorem parseStep_insMap_some (acc : ParseAcc) (p : YmlFile × List String)
    (kv : String × InsertBuilder)
    (hb : (parseTask p.2 p.1).publishedBatch = some kv) :
    (parseStep acc p).insMap = mapInsert acc.insMap kv.1 kv.2 := by
  simp [parseStep, hb]

/-- A key that no scheduled goroutine publishes keeps its `insertMap` binding
through the whole parse fold. -/
theorem parse_foldl_insMap_not_mem (schedule : List (YmlFile × List String)) :
    ∀ acc : ParseAcc, ∀ k, k ∉ scheduleNames schedule →
      mapLookup (schedule.foldl parseStep acc).insMap k = mapLookup acc.insMap k := by
  induction schedule with
  | nil => intro acc k _; rfl
  | cons p rest ih =>
    intro acc k hk
    have hk1 : k ≠ p.1.name := by
      intro hc
      exact hk (by simp [scheduleNames, hc])
    have hk2 : k ∉ scheduleNames rest := by
      intro hc
      exact hk (by simp [scheduleNames] at hc ⊢; exact Or.inr hc)
    cases hb : (parseTask p.2 p.1).publishedBatch with
    | none => rw [List.foldl_cons, ih _ k hk2, parseStep_insMap_none _ _ hb]
    | some kv =>
      rw [List.foldl_cons, ih _ k hk2, parseStep_insMap_some _ _ _ hb]
      have hkey := parseTask_publishedBatch_key hb
      exact mapLookup_mapInsert_ne _ _ _ _ (fun hc => hk1 (hc.trans hkey))

/-- With pairwise-distinct file names, every scheduled `.yml` file's batch is
present in `insertMap` after the parse fold, keyed by its file name. -/
theorem parse_foldl_insMap_mem (schedule : List (YmlFile × List String)) :
    ∀ acc : ParseAcc, (scheduleNames schedule).Nodup →
      ∀ p ∈ schedule, hasSuffix p.1.name ".yml" = true →
        mapLookup (schedule.foldl parseStep acc).insMap p.1.name =
          some (buildFileBatch p.2 p.1) := by
  induction schedule with
  | nil => intro acc _ p hp; simp at hp
  | cons q rest ih =>
    intro acc hnd p hp hyml
    have hnd2 : (q.1.name :: scheduleNames rest).Nodup := hnd
    have hq : q.1.name ∉ scheduleNames rest := (List.nodup_cons.mp hnd2).1
    have hnd' : (scheduleNames rest).Nodup := (List.nodup_cons.mp hnd2).2
    rcases List.mem_cons.mp hp with rfl | hp'
    · rw [List.foldl_cons, parse_foldl_insMap_not_mem rest _ _ hq,
        parseStep_insMap_some _ _ _ (parseTask_publishedBatch_yml _ hyml)]
      exact mapLookup_mapInsert_self _ _ _
    · exact ih _ hnd' p hp' hyml

/- ### Lemmas: database state -/

theorem getRows_setRows (db : DbState) (t : String) (n : Nat) (t' : String) :
    getRows (setRows db t n) t' = if t' = t then n else getRows db t' := by
  induction db with
  | nil =>
    by_cases h : t = t'
    · simp [setRows, getRows, h]
    · have h2 : ¬ (t' = t) := fun hc => h hc.symm
      simp [setRows, getRows, h, h2]
  | cons a rest ih =>
    by_cases ha : a.1 = t
    · by_cases ht : t' = t
      · simp [setRows, getRows, ha, ht]
      · have h2 : ¬ (t = t') := fun hc => ht hc.symm
        have h3 : ¬ (a.1 = t') := by
          rw [ha]
          exact h2
        simp [setRows, getRows, ha, ht, h2, h3]
    · by_cases hx : a.1 = t'
      · have h2 : ¬ (t' = t) := fun hc => ha (hx.trans hc)
        simp [setRows, getRows, ha, hx, h2]
      · simp [setRows, getRows, ha, hx, ih]

theorem getRows_addRows (db : DbState) (t : String) (n : Nat) (t' : String) :
    getRows (addRows db t n) t' = if t' = t then getRows db t + n else getRows db t' := by
  unfold addRows
  rw [getRows_setRows]

theorem getRows_truncAllTables (ts : List String) :
    ∀ db : DbState, ∀ t, getRows (truncAllTables db ts) t =
      if t ∈ ts then 0 else getRows db t := by
  induction ts with
  | nil => intro db t; simp [truncAllTables]
  | cons u ts ih =>
    intro db t
    rw [truncAllTables, ih]
    by_cases hm : t ∈ ts
    · simp [hm]
    · by_cases ht : t = u
      · simp [hm, ht, getRows_setRows]
      · simp [hm, ht, getRows_setRows]

/-- With no injected TRUNCATE failure the truncate loop zeroes every listed
table and issues one TRUNCATE per listed table, in order. -/
theorem runTruncates_noFail {env : Env} (h : env.truncFails = []) (ts : List String) :
    ∀ db : DbState, runTruncates env db ts = (none, truncAllTables db ts, ts.map Stmt.truncate) := by
  induction ts with
  | nil => intro db; simp [runTruncates, truncAllTables]
  | cons t ts ih =>
    intro db
    rw [runTruncates]
    simp [h, ih, truncAllTables]

/- ### Lemmas: the transactional insert loop -/

theorem txInsertLoop_getRows (env : Env) (g : GlobalState) (ord : List String) :
    ∀ db : DbState, ∀ t, getRows (txInsertLoop env g db ord).1 t =
      getRows db t + (ord.map (rowContribution env g t)).sum := by
  induction ord with
  | nil => intro db t; simp [txInsertLoop]
  | cons k ks ih =>
    intro db t
    rw [txInsertLoop]
    cases hk : mapLookup g.insertMap k with
    | none =>
      simp only [List.map_cons, List.sum_cons, rowContribution, hk]
      rw [ih]
      omega
    | some qb =>
      by_cases hf : k ∈ env.insertFails
      · simp only [List.map_cons, List.sum_cons, rowContribution, hk, if_pos hf]
        rw [ih]
        omega
      · simp only [List.map_cons, List.sum_cons, rowContribution, hk, if_neg hf]
        rw [ih, getRows_addRows]
        by_cases ht : qb.table = t
        · rw [ht]
          simp only [if_true, eq_self_iff_true, ite_true]
          omega
        · have ht' : ¬ (t = qb.table) := fun hc => ht hc.symm
          rw [if_neg ht, if_neg ht']
          omega

theorem txInsertLoop_trace (env : Env) (g : GlobalState) (ord : List String) :
    ∀ db : DbState, (txInsertLoop env g db ord).2 =
      (ord.filter (fun k => (mapLookup g.insertMap k).isSome)).map Stmt.insertRows := by
  induction ord with
  | nil => intro db; simp [txInsertLoop]
  | cons k ks ih =>
    intro db
    rw [txInsertLoop]
    cases hk : mapLookup g.insertMap k with
    | none => simp [hk, ih]
    | some qb =>
      by_cases hf : k ∈ env.insertFails
      · simp [hk, if_pos hf, ih]
      · simp [hk, if_neg hf, ih]

/- ### Lemmas: loadParsedData -/

/-- With FK-disable, TRUNCATE and Begin succeeding but Commit failing, the
load returns the commit error and leaves the database as the truncations
left it: the transaction's inserts are rolled back, the truncations are
not (they ran outside the transaction). -/
theorem loadParsedData_commitFail {env : Env} (g : GlobalState) (db : DbState)
    (h1 : env.fkDisableFails = false) (h2 : env.truncFails = [])
    (h3 : env.beginFails = false) (h4 : env.commitFails = true) :
    loadParsedData env g db =
      (Except.error "commit failed", truncAllTables db g.finishedTablseNames,
        Stmt.fkOff :: g.finishedTablseNames.map Stmt.truncate ++ [Stmt.beginTx] ++
          (env.mapOrd.filter (fun k => (mapLookup g.insertMap k).isSome)).map Stmt.insertRows ++
          [Stmt.commitTx, Stmt.rollbackTx, Stmt.fkOn]) := by
  unfold loadParsedData
  rw [runTruncates_noFail h2]
  simp [h1, h3, h4, txInsertLoop_trace]

/-- With no injected failure the load succeeds and the database becomes the
insert loop's result over the truncated state. -/
theorem loadParsedData_ok {env : Env} (g : GlobalState) (db : DbState)
    (h1 : env.fkDisableFails = false) (h2 : env.truncFails = [])
    (h3 : env.beginFails = false) (h4 : env.commitFails = false) :
    loadParsedData env g db =
      (Except.ok (),
        (txInsertLoop env g (truncAllTables db g.finishedTablseNames) env.mapOrd).1,
        Stmt.fkOff :: g.finishedTablseNames.map Stmt.truncate ++ [Stmt.beginTx] ++
          (env.mapOrd.filter (fun k => (mapLookup g.insertMap k).isSome)).map Stmt.insertRows ++
          [Stmt.commitTx, Stmt.rollbackTx, Stmt.fkOn]) := by
  unfold loadParsedData
  rw [runTruncates_noFail h2]
  simp [h1, h3, h4, txInsertLoop_trace]

/-- Whenever FK-disable, TRUNCATE and Begin succeed, the issued statement
trace has the same shape, whether or not the commit succeeds. -/
theorem loadParsedData_trace {env : Env} (g : GlobalState) (db : DbState)
    (h1 : env.fkDisableFails = false) (h2 : env.truncFails = [])
    (h3 : env.beginFails = false) :
    (loadParsedData env g db).2.2 =
      Stmt.fkOff :: g.finishedTablseNames.map Stmt.truncate ++ [Stmt.beginTx] ++
        (env.mapOrd.filter (fun k => (mapLookup g.insertMap k).isSome)).map Stmt.insertRows ++
        [Stmt.commitTx, Stmt.rollbackTx, Stmt.fkOn] := by
  by_cases h4 : env.commitFails
  · rw [loadParsedData_commitFail g db h1 h2 h3 h4]
  · rw [loadParsedData_ok g db h1 h2 h3 (by simpa using h4)]

/-- Row counts after a successful load: tables in the truncation list hold
exactly what the load inserted; the rest keep their rows plus any inserts
aimed at them. -/
theorem loadParsedData_ok_getRows {env : Env} (g : GlobalState) (db : DbState)
    (h1 : env.fkDisableFails = false) (h2 : env.truncFails = [])
    (h3 : env.beginFails = false) (h4 : env.commitFails = false) (t : String) :
    getRows (loadParsedData env g db).2.1 t =
      (if t ∈ g.finishedTablseNames then 0 else getRows db t) + insertedInto env g t := by
  rw [loadParsedData_ok g db h1 h2 h3 h4]
  show getRows (txInsertLoop env g (truncAllTables db g.finishedTablseNames) env.mapOrd).1 t = _
  rw [txInsertLoop_getRows, getRows_truncAllTables]
  rfl

/-- Every exit path reached after the FK-disable statement succeeded issues
the re-enable statement (the defer registered right after the disable). -/
theorem loadParsedData_fkOn_mem {env : Env} (g : GlobalState) (db : DbState)
    (h1 : env.fkDisableFails = false) :
    Stmt.fkOn ∈ (loadParsedData env g db).2.2 := by
  unfold loadParsedData
  rw [if_neg (by simp [h1])]
  rcases hEq : runTruncates env db g.finishedTablseNames with ⟨e, db1, tr⟩
  cases e with
  | some t => simp
  | none =>
    by_cases h3 : env.beginFails
    · simp [h3]
    · by_cases h4 : env.commitFails
      · simp [h3, h4]
      · simp [h3, h4]

/-- A load that never reaches a missing table keeps no inserts into other
tables: when every cached batch targets a table in the truncation list,
nothing is inserted into tables outside that list. -/
theorem insertedInto_eq_zero {env : Env} {g : GlobalState} {t : String}
    (hcov : ∀ kv ∈ g.insertMap, kv.2.table ∈ g.finishedTablseNames)
    (ht : t ∉ g.finishedTablseNames) :
    insertedInto env g t = 0 := by
  unfold insertedInto
  refine List.sum_eq_zero ?_
  intro x hx
  rcases List.mem_map.mp hx with ⟨k, _, rfl⟩
  unfold rowContribution
  cases hk : mapLookup g.insertMap k with
  | none => rfl
  | some qb =>
    by_cases hf : k ∈ env.insertFails
    · simp [hf]
    · have hmem : (k, qb) ∈ g.insertMap := mapLookup_mem hk
      have : qb.table ∈ g.finishedTablseNames := hcov _ hmem
      have hne : ¬ (qb.table = t) := fun hc => ht (hc ▸ this)
      simp [hf, hne]

/- ### Lemmas: ImportFixtures branches -/

theorem ensureDbConnected_ok (env : Env) (fx : Fixturer)
    (h : env.connectFails = false) :
    ∃ r, ensureDbConnected env fx = Except.ok r := by
  unfold ensureDbConnected
  by_cases hc : fx.dbConnected <;> simp [hc, h]

/-- An import of a directory already in `finishedParsedDirs`: one directory
listing, no parsing, the cache untouched, the load's error discarded. -/
theorem ImportFixtures_hit (env : Env) (fx : Fixturer) (entries : List YmlFile)
    (schedule : List (YmlFile × List String)) (g : GlobalState) (db : DbState)
    (hconn : env.connectFails = false)
    (hd : fx.fixturesPathYml ∈ g.finishedParsedDirs) :
    ImportFixtures env fx (some entries) schedule g db =
      { res := Except.ok (), g := g, db := (loadParsedData env g db).2.1
        io := [IoEvent.dirList fx.fixturesPathYml]
        sql := (loadParsedData env g db).2.2 } := by
  obtain ⟨rr, hr⟩ := ensureDbConnected_ok env fx hconn
  simp [ImportFixtures, hr, importYmlFixtures, hd]

/-- A first import of a directory keeps `finishedParsedDirs` as computed by
the caller plus the new directory. -/
theorem parse_dirs_eq (files : List YmlFile)
    (schedule : List (YmlFile × List String)) (g : GlobalState) :
    (pushInsertQueriesFromYmlToChannel files schedule g).g.finishedParsedDirs =
      g.finishedParsedDirs := rfl

/-- A first import of a directory: one directory listing, a full parse
phase, the directory recorded, and the load run against the post-parse
global state. -/
theorem ImportFixtures_miss (env : Env) (fx : Fixturer) (entries : List YmlFile)
    (schedule : List (YmlFile × List String)) (g : GlobalState) (db : DbState)
    (hconn : env.connectFails = false)
    (hd : fx.fixturesPathYml ∉ g.finishedParsedDirs) :
    ImportFixtures env fx (some entries) schedule g db =
      (let po := pushInsertQueriesFromYmlToChannel (getYmlFilesList entries) schedule g
       let g' : GlobalState :=
         { finishedTablseNames := po.g.finishedTablseNames
           finishedParsedDirs := g.finishedParsedDirs ++ [fx.fixturesPathYml]
           insertMap := po.g.insertMap }
       { res := (loadParsedData env g' db).1, g := g'
         db := (loadParsedData env g' db).2.1
         io := IoEvent.dirList fx.fixturesPathYml :: po.fileReads.map IoEvent.fileRead
         sql := (loadParsedData env g' db).2.2 }) := by
  obtain ⟨rr, hr⟩ := ensureDbConnected_ok env fx hconn
  simp [ImportFixtures, hr, importYmlFixtures, hd, parse_dirs_eq]

/- ### Claim C3 -/

/-- C3 counterexample: the column list is built by iterating a Go map, whose
order is unspecified; for records `{b:1}`, `{a:2}` the admissible iteration
order `["a","b"]` yields a column list that differs from the
first-occurrence-order union `["b","a"]`, so the claim "column list equal to
the union of all field names across the file's records in first-occurrence
order" is false. -/
theorem C3_counterexample :
    admissibleKeyOrder ["a", "b"] [[("b", Val.int 1)], [("a", Val.int 2)]] ∧
    (buildFileBatch ["a", "b"]
        ⟨"users.yml", false, some [[("b", Val.int 1)], [("a", Val.int 2)]]⟩).columns ≠
      firstOccurrenceUnion [[("b", Val.int 1)], [("a", Val.int 2)]] := by
  constructor
  · decide
  · decide

/-- C3 (amended): for every fixture file and every admissible key-map
iteration order, the built batch's column list is a PERMUTATION of the
union of all field names across the file's records (the order is the
unspecified Go-map iteration order, not first-occurrence order), and there
is one value tuple per record, of exactly the column list's length, whose
cell at every position holds the record's value for that column or the
explicit absent marker when the record omits it. -/
theorem C3_column_union_batch (ord : List String) (f : YmlFile)
    (h : admissibleKeyOrder ord (f.content.getD [])) :
    (buildFileBatch ord f).columns.Perm (firstOccurrenceUnion (f.content.getD [])) ∧
    (buildFileBatch ord f).rows = (f.content.getD []).map (addMapRow ord) ∧
    (buildFileBatch ord f).rows.length = (f.content.getD []).length ∧
    (∀ row ∈ (buildFileBatch ord f).rows, row.length = (buildFileBatch ord f).columns.length) ∧
    (∀ rec, ∀ i : Nat, (addMapRow ord rec)[i]? =
      ord[i]?.map (fun c =>
        match lookupField rec c with
        | some v => Cell.val v
        | none => Cell.absent)) := by
  refine ⟨admissibleKeyOrder_perm h, rfl, by simp [buildFileBatch], ?_, ?_⟩
  · intro row hrow
    rcases List.mem_map.mp hrow with ⟨rec, _, rfl⟩
    simp [addMapRow, buildFileBatch]
  · intro rec i
    exact List.getElem?_map _ _ _

/-- C3 witness: the amended statement evaluated on the counterexample file
with iteration order `["a","b"]`. -/
theorem C3_column_union_batch_witness :
    (buildFileBatch ["a", "b"]
        ⟨"users.yml", false, some [[("b", Val.int 1)], [("a", Val.int 2)]]⟩).columns.Perm
      (firstOccurrenceUnion [[("b", Val.int 1)], [("a", Val.int 2)]]) :=
  (C3_column_union_batch ["a", "b"]
    ⟨"users.yml", false, some [[("b", Val.int 1)], [("a", Val.int 2)]]⟩ (by decide)).1

/- ### Claim C5 -/

/-- C5: a fixture file whose content fails to decode contributes zero
records (its batch has no rows); every sibling file of the same schedule
still gets its batch published into `insertMap`; and the result of
`ImportFixtures` is `ok` whenever the directory listing, connection and
load succeed — the decode outcome of any file never reaches the caller. -/
theorem C5_malformed_fixture_nonfatal :
    (∀ (ord : List String) (f : YmlFile), f.content = none →
      (buildFileBatch ord f).rows = []) ∧
    (∀ (files : List YmlFile) (schedule : List (YmlFile × List String)) (g : GlobalState),
      (scheduleNames schedule).Nodup →
      ∀ p ∈ schedule, hasSuffix p.1.name ".yml" = true →
        mapLookup (pushInsertQueriesFromYmlToChannel files schedule g).g.insertMap p.1.name =
          some (buildFileBatch p.2 p.1)) ∧
    (∀ (env : Env) (fx : Fixturer) (entries : List YmlFile)
        (schedule : List (YmlFile × List String)) (g : GlobalState) (db : DbState),
      env.connectFails = false → env.fkDisableFails = false → env.truncFails = [] →
      env.beginFails = false → env.commitFails = false →
      (ImportFixtures env fx (some entries) schedule g db).res = Except.ok ()) := by
  refine ⟨?_, ?_, ?_⟩
  · intro ord f h
    simp [buildFileBatch, h]
  · intro files schedule g hnd p hp hyml
    exact parse_foldl_insMap_mem schedule _ hnd p hp hyml
  · intro env fx entries schedule g db hconn h1 h2 h3 h4
    by_cases hd : fx.fixturesPathYml ∈ g.finishedParsedDirs
    · rw [ImportFixtures_hit env fx entries schedule g db hconn hd]
    · rw [ImportFixtures_miss env fx entries schedule g db hconn hd]
      simp [loadParsedData_ok _ _ h1 h2 h3 h4]

/-- C5 witness: a directory whose only file is malformed imports
successfully. -/
theorem C5_malformed_fixture_nonfatal_witness :
    (ImportFixtures ⟨false, false, [], false, false, [], []⟩
      (NewFixturer true "" "" "d" "" "")
      (some [⟨"bad.yml", false, none⟩]) [(⟨"bad.yml", false, none⟩, [])]
      ⟨[], [], []⟩ []).res = Except.ok () :=
  C5_malformed_fixture_nonfatal.2.2 _ _ _ _ _ _ rfl rfl rfl rfl rfl

/- ### Claim C6 -/

/-- C6: the composed pipeline runs recreate, then schema load, then import
when the construction-time flag is set, and only import when it is clear;
it stops at the first failing step (later steps are not executed) and the
earlier steps remain in the executed-step list (no cross-step rollback). -/
theorem C6_pipeline_composition (fx : Fixturer)
    (recreateRes schemaRes importRes : Except String Unit) :
    (fx.recreateDatabase = false →
      RecreateDatabaseWithSchemaAndImportFixtures fx recreateRes schemaRes importRes =
        (importRes, [PipeStep.importStep])) ∧
    (∀ e, fx.recreateDatabase = true → recreateRes = Except.error e →
      RecreateDatabaseWithSchemaAndImportFixtures fx recreateRes schemaRes importRes =
        (Except.error e, [PipeStep.recreateStep])) ∧
    (∀ e, fx.recreateDatabase = true → recreateRes = Except.ok () →
      schemaRes = Except.error e →
      RecreateDatabaseWithSchemaAndImportFixtures fx recreateRes schemaRes importRes =
        (Except.error e, [PipeStep.recreateStep, PipeStep.schemaStep])) ∧
    (fx.recreateDatabase = true → recreateRes = Except.ok () → schemaRes = Except.ok () →
      RecreateDatabaseWithSchemaAndImportFixtures fx recreateRes schemaRes importRes =
        (importRes, [PipeStep.recreateStep, PipeStep.schemaStep, PipeStep.importStep])) := by
  refine ⟨?_, ?_, ?_, ?_⟩
  · intro h
    simp [RecreateDatabaseWithSchemaAndImportFixtures, h]
  · intro e h h2
    subst h2
    simp [RecreateDatabaseWithSchemaAndImportFixtures, h]
  · intro e h h2 h3
    subst h2
    subst h3
    simp [RecreateDatabaseWithSchemaAndImportFixtures, h]
  · intro h h2 h3
    subst h2
    subst h3
    simp [RecreateDatabaseWithSchemaAndImportFixtures, h]

/-- C6 witness: a failing recreate step stops the pipeline at once. -/
theorem C6_pipeline_composition_witness :
    RecreateDatabaseWithSchemaAndImportFixtures (NewFixturer true "" "" "" "" "")
      (Except.error "boom") (Except.ok ()) (Except.ok ()) =
      (Except.error "boom", [PipeStep.recreateStep]) :=
  (C6_pipeline_composition _ _ _ _).2.1 "boom" rfl rfl

/- ### Claim C7 -/

/-- C7: `SetInsertGoroutinesCnt` aborts (panics) for every `cnt < 1` while
performing no file or database I/O; for `cnt ≥ 1` it returns the receiver
with the count set; the count governs only the connection pool limits set
when connecting, and the number of launched per-file parse tasks equals the
file count regardless of the knob. -/
theorem C7_parallelism_knob :
    (∀ (fx : Fixturer) (cnt : Int), cnt < 1 → (SetInsertGoroutinesCnt fx cnt).1 = none) ∧
    (∀ (fx : Fixturer) (cnt : Int), (SetInsertGoroutinesCnt fx cnt).2 = ([], [])) ∧
    (∀ (fx : Fixturer) (cnt : Int), 1 ≤ cnt →
      (SetInsertGoroutinesCnt fx cnt).1 = some { fx with insertGoroutinesCnt := cnt }) ∧
    (∀ (env : Env) (fx : Fixturer), fx.dbConnected = false → env.connectFails = false →
      ensureDbConnected env fx = Except.ok ({ fx with dbConnected := true },
        some { maxOpenConns := fx.insertGoroutinesCnt
               maxIdleConns := fx.insertGoroutinesCnt })) ∧
    (∀ (files : List YmlFile) (schedule : List (YmlFile × List String)) (g : GlobalState),
      (pushInsertQueriesFromYmlToChannel files schedule g).launched = files.length) := by
  refine ⟨?_, ?_, ?_, ?_, ?_⟩
  · intro fx cnt h
    simp [SetInsertGoroutinesCnt, h]
  · intro fx cnt
    rfl
  · intro fx cnt h
    simp [SetInsertGoroutinesCnt, not_lt.mpr h]
  · intro env fx h1 h2
    simp [ensureDbConnected, h1, h2]
  · intro files schedule g
    rfl

/-- C7 witness: the knob at 0 aborts; at 5 it configures the receiver. -/
theorem C7_parallelism_knob_witness :
    (SetInsertGoroutinesCnt (NewFixturer true "" "" "" "" "") 0).1 = none ∧
    (SetInsertGoroutinesCnt (NewFixturer true "" "" "" "" "") 5).1 =
      some { NewFixturer true "" "" "" "" "" with insertGoroutinesCnt := 5 } :=
  ⟨C7_parallelism_knob.1 _ 0 (by decide), C7_parallelism_knob.2.2.1 _ 5 (by decide)⟩

/- ### Claim C8 -/

/-- C8 counterexample: on the exit path where the FK-disable statement
itself fails, `loadParsedData` returns before the re-enable defer is
registered, so no re-enable statement is issued — refuting "on every exit
path ... regardless of any prior failure". -/
theorem C8_counterexample :
    (loadParsedData ⟨false, true, [], false, false, [], []⟩ ⟨[], [], []⟩ []).1 =
      Except.error "disable FK checks failed" ∧
    Stmt.fkOn ∉ (loadParsedData ⟨false, true, [], false, false, [], []⟩ ⟨[], [], []⟩ []).2.2 := by
  exact ⟨rfl, by decide⟩

/-- C8 (amended): on every exit path reached after the FK-disable statement
succeeded — success, error or early return — a re-enable statement is
issued, in both the fixture load and the schema load; exit paths taken
before or at the disable step (connection failure, Begin failure, or the
disable itself failing) issue none. -/
theorem C8_fk_reenable_on_exit :
    (∀ (env : Env) (g : GlobalState) (db : DbState), env.fkDisableFails = false →
      Stmt.fkOn ∈ (loadParsedData env g db).2.2) ∧
    (∀ senv : SchemaEnv, senv.connectFails = false → senv.beginFails = false →
      senv.fkDisableFails = false → Stmt.fkOn ∈ (LoadDbSchema senv).2) := by
  constructor
  · exact fun env g db h => loadParsedData_fkOn_mem g db h
  · intro senv h1 h2 h3
    unfold LoadDbSchema
    rw [if_neg (by simp [h1]), if_neg (by simp [h2]), if_neg (by simp [h3])]
    cases hs : senv.schemaFile with
    | none => simp
    | some file =>
      rcases hq : execSchemaQueries senv (schemaQueries file) with ⟨e, tr⟩
      cases e with
      | some q => simp [hq]
      | none =>
        by_cases h4 : senv.commitFails <;> simp [hq, h4]

/-- C8 witness: a run whose commit fails still issues the re-enable. -/
theorem C8_fk_reenable_on_exit_witness :
    Stmt.fkOn ∈ (loadParsedData ⟨false, false, [], false, true, [], []⟩
      ⟨["t"], [], []⟩ []).2.2 :=
  C8_fk_reenable_on_exit.1 _ _ _ rfl

/- ### Trace observation helpers -/

theorem truncatesOf_append (l1 l2 : List Stmt) :
    truncatesOf (l1 ++ l2) = truncatesOf l1 ++ truncatesOf l2 := by
  simp [truncatesOf]

theorem truncatesOf_map_truncate (ts : List String) :
    truncatesOf (ts.map Stmt.truncate) = ts := by
  induction ts with
  | nil => rfl
  | cons t ts ih => simpa [truncatesOf] using ih

theorem truncatesOf_map_insertRows (ks : List String) :
    truncatesOf (ks.map Stmt.insertRows) = [] := by
  induction ks with
  | nil => rfl
  | cons k ks _ih => simp [truncatesOf]

/-- The TRUNCATE statements of one load are exactly the current
`finishedTablseNames`, in order. -/
theorem truncatesOf_loadParsedData {env : Env} (g : GlobalState) (db : DbState)
    (h1 : env.fkDisableFails = false) (h2 : env.truncFails = [])
    (h3 : env.beginFails = false) :
    truncatesOf (loadParsedData env g db).2.2 = g.finishedTablseNames := by
  rw [loadParsedData_trace g db h1 h2 h3]
  have h4 := truncatesOf_map_truncate g.finishedTablseNames
  have h5 := truncatesOf_map_insertRows
    (env.mapOrd.filter (fun k => (mapLookup g.insertMap k).isSome))
  simp [truncatesOf, truncatesOf_append] at h4 h5 ⊢
  simp [h4, h5]

/-- Every insert-map key of the load-loop iteration order whose lookup
succeeds has its INSERT statement in the load's trace. -/
theorem insertRows_mem_loadParsedData {env : Env} (g : GlobalState) (db : DbState)
    (h1 : env.fkDisableFails = false) (h2 : env.truncFails = [])
    (h3 : env.beginFails = false) (k : String) (hk : k ∈ env.mapOrd)
    (hsome : (mapLookup g.insertMap k).isSome = true) :
    Stmt.insertRows k ∈ (loadParsedData env g db).2.2 := by
  rw [loadParsedData_trace g db h1 h2 h3]
  have hmem : k ∈ env.mapOrd.filter (fun k => (mapLookup g.insertMap k).isSome) :=
    List.mem_filter.mpr ⟨hk, hsome⟩
  refine List.mem_cons_of_mem _ ?_
  refine List.mem_append_left _ ?_
  refine List.mem_append_right _ ?_
  exact List.mem_map_of_mem _ hmem

/-- The table-name list recorded by a parse phase is exactly the current
schedule's tables — the previous global list is replaced, not appended. -/
theorem parse_tablesNames (files : List YmlFile)
    (schedule : List (YmlFile × List String)) (g : GlobalState) :
    (pushInsertQueriesFromYmlToChannel files schedule g).g.finishedTablseNames =
      scheduleTables schedule := by
  show (schedule.foldl parseStep _).tablesNames = _
  rw [parse_foldl_tablesNames]
  rfl

theorem parse_insMap_mem (files : List YmlFile)
    (schedule : List (YmlFile × List String)) (g : GlobalState)
    (hnd : (scheduleNames schedule).Nodup) (p : YmlFile × List String)
    (hp : p ∈ schedule) (hyml : hasSuffix p.1.name ".yml" = true) :
    mapLookup (pushInsertQueriesFromYmlToChannel files schedule g).g.insertMap p.1.name =
      some (buildFileBatch p.2 p.1) :=
  parse_foldl_insMap_mem schedule _ hnd p hp hyml

theorem parse_insMap_not_mem (files : List YmlFile)
    (schedule : List (YmlFile × List String)) (g : GlobalState)
    (k : String) (hk : k ∉ scheduleNames schedule) :
    mapLookup (pushInsertQueriesFromYmlToChannel files schedule g).g.insertMap k =
      mapLookup g.insertMap k :=
  parse_foldl_insMap_not_mem schedule _ k hk

/- ### Claim C1 -/

/-- C1 counterexample: a cached repeat import whose commit fails. The table
`users` held 5 rows before the run; after it the run reports success (the
cache-hit path of `importYmlFixtures` discards `loadParsedData`'s error)
and `users` holds 0 rows — it was truncated outside the transaction, so the
rollback did not restore it. Both halves of the claim fail: the pre-import
row count is not retained, and the commit error is not returned. -/
theorem C1_counterexample :
    getRows [("users", 5)] "users" = 5 ∧
    (importYmlFixtures ⟨false, false, [], false, true, [], ["users.yml"]⟩ "dirA" [] []
      ⟨["users"], ["dirA"], [("users.yml",
        ⟨"users", ["id"], [[Cell.val (Val.int 1)], [Cell.val (Val.int 2)]]⟩)]⟩
      [("users", 5)]).res = Except.ok () ∧
    getRows (importYmlFixtures ⟨false, false, [], false, true, [], ["users.yml"]⟩ "dirA" [] []
      ⟨["users"], ["dirA"], [("users.yml",
        ⟨"users", ["id"], [[Cell.val (Val.int 1)], [Cell.val (Val.int 2)]]⟩)]⟩
      [("users", 5)]).db "users" = 0 :=
  ⟨rfl, rfl, rfl⟩

/-- C1 (amended): the pending insertions run inside one transaction whose
commit failure rolls them back and produces the commit error; but the
truncations run on the raw connection before the transaction begins, so
after a failed commit every table of the truncation list holds zero rows,
not its pre-import count (tables outside the list are untouched); and the
commit error reaches the caller of the import only on a first import of
the directory — a cached repeat import discards it and reports success. -/
theorem C1_load_transaction (env : Env) (g : GlobalState) (db : DbState)
    (h1 : env.fkDisableFails = false) (h2 : env.truncFails = [])
    (h3 : env.beginFails = false) (h4 : env.commitFails = true) :
    (loadParsedData env g db).1 = Except.error "commit failed" ∧
    (∀ t ∈ g.finishedTablseNames, getRows (loadParsedData env g db).2.1 t = 0) ∧
    (∀ t, t ∉ g.finishedTablseNames →
      getRows (loadParsedData env g db).2.1 t = getRows db t) ∧
    (∀ (dir : String) (files : List YmlFile) (schedule : List (YmlFile × List String)),
      dir ∈ g.finishedParsedDirs →
      (importYmlFixtures env dir files schedule g db).res = Except.ok ()) ∧
    (∀ (dir : String) (files : List YmlFile) (schedule : List (YmlFile × List String)),
      dir ∉ g.finishedParsedDirs →
      (importYmlFixtures env dir files schedule g db).res = Except.error "commit failed") := by
  refine ⟨?_, ?_, ?_, ?_, ?_⟩
  · rw [loadParsedData_commitFail g db h1 h2 h3 h4]
  · intro t ht
    rw [loadParsedData_commitFail g db h1 h2 h3 h4]
    show getRows (truncAllTables db g.finishedTablseNames) t = 0
    rw [getRows_truncAllTables]
    simp [ht]
  · intro t ht
    rw [loadParsedData_commitFail g db h1 h2 h3 h4]
    show getRows (truncAllTables db g.finishedTablseNames) t = getRows db t
    rw [getRows_truncAllTables]
    simp [ht]
  · intro dir files schedule hd
    simp [importYmlFixtures, hd]
  · intro dir files schedule hd
    simp only [importYmlFixtures, if_neg hd]
    rw [loadParsedData_commitFail _ _ h1 h2 h3 h4]

/-- C1 witness: the amended claim at a one-table cached state with a
failing commit. -/
theorem C1_load_transaction_witness :
    (loadParsedData ⟨false, false, [], false, true, [], ["users.yml"]⟩
      ⟨["users"], ["dirA"], [("users.yml", ⟨"users", ["id"], [[Cell.val (Val.int 1)]]⟩)]⟩
      [("users", 5)]).1 = Except.error "commit failed" :=
  (C1_load_transaction _ _ _ rfl rfl rfl rfl).1

/- ### Claim C2 -/

/-- C2 counterexample: a second `ImportFixtures` call for the same directory
still performs the directory listing (`getYmlFilesList` runs before any
cache consultation), so its file-system trace is not empty — refuting
"zero additional file reads (neither directory listing nor per-file
parsing)". The per-file parsing is indeed skipped, but the listing is not. -/
theorem C2_counterexample :
    IoEvent.dirList "dirA" ∈
      (ImportFixtures ⟨false, false, [], false, false, [], ["t1.yml"]⟩
        ⟨true, "", "", "dirA", true, "", "", 20⟩
        (some [⟨"t1.yml", false, some [[("id", Val.int 1)]]⟩])
        [(⟨"t1.yml", false, some [[("id", Val.int 1)]]⟩, ["id"])]
        (ImportFixtures ⟨false, false, [], false, false, [], ["t1.yml"]⟩
          ⟨true, "", "", "dirA", true, "", "", 20⟩
          (some [⟨"t1.yml", false, some [[("id", Val.int 1)]]⟩])
          [(⟨"t1.yml", false, some [[("id", Val.int 1)]]⟩, ["id"])]
          ⟨[], [], []⟩ []).g
        (ImportFixtures ⟨false, false, [], false, false, [], ["t1.yml"]⟩
          ⟨true, "", "", "dirA", true, "", "", 20⟩
          (some [⟨"t1.yml", false, some [[("id", Val.int 1)]]⟩])
          [(⟨"t1.yml", false, some [[("id", Val.int 1)]]⟩, ["id"])]
          ⟨[], [], []⟩ []).db).io := by
  decide

/-- C2 (amended): a repeat `ImportFixtures` call for an already-parsed
directory performs exactly one directory listing and no per-file reads or
parsing; it leaves the process-global cache untouched (the previously
built batches are reused verbatim); and re-running it once more yields
identical row counts in every table. -/
theorem C2_cached_reimport (env : Env) (fx : Fixturer) (entries : List YmlFile)
    (schedule : List (YmlFile × List String)) (g : GlobalState) (db : DbState)
    (hdir : fx.fixturesPathYml ∈ g.finishedParsedDirs)
    (hconn : env.connectFails = false)
    (hcov : ∀ kv ∈ g.insertMap, kv.2.table ∈ g.finishedTablseNames)
    (h1 : env.fkDisableFails = false) (h2 : env.truncFails = [])
    (h3 : env.beginFails = false) (h4 : env.commitFails = false) :
    (ImportFixtures env fx (some entries) schedule g db).io =
      [IoEvent.dirList fx.fixturesPathYml] ∧
    (∀ n, IoEvent.fileRead n ∉ (ImportFixtures env fx (some entries) schedule g db).io) ∧
    (ImportFixtures env fx (some entries) schedule g db).g = g ∧
    (∀ t, getRows (ImportFixtures env fx (some entries) schedule g
        (ImportFixtures env fx (some entries) schedule g db).db).db t =
      getRows (ImportFixtures env fx (some entries) schedule g db).db t) := by
  rw [ImportFixtures_hit env fx entries schedule g db hconn hdir]
  refine ⟨rfl, by simp, rfl, ?_⟩
  intro t
  show getRows (ImportFixtures env fx (some entries) schedule g
      (loadParsedData env g db).2.1).db t = _
  rw [ImportFixtures_hit env fx entries schedule g _ hconn hdir]
  show getRows (loadParsedData env g ((loadParsedData env g db).2.1)).2.1 t = _
  rw [loadParsedData_ok_getRows g ((loadParsedData env g db).2.1) h1 h2 h3 h4 t,
    loadParsedData_ok_getRows g db h1 h2 h3 h4 t]
  by_cases hm : t ∈ g.finishedTablseNames
  · simp [hm]
  · rw [insertedInto_eq_zero hcov hm]
    simp [hm]

/-- C2 witness: the amended claim at a one-table cached state. -/
theorem C2_cached_reimport_witness :
    (ImportFixtures ⟨false, false, [], false, false, [], ["users.yml"]⟩
      ⟨true, "", "", "dirA", true, "", "", 20⟩ (some []) []
      ⟨["users"], ["dirA"], [("users.yml", ⟨"users", ["id"], [[Cell.val (Val.int 1)]]⟩)]⟩
      []).io = [IoEvent.dirList "dirA"] :=
  (C2_cached_reimport ⟨false, false, [], false, false, [], ["users.yml"]⟩
    ⟨true, "", "", "dirA", true, "", "", 20⟩ [] []
    ⟨["users"], ["dirA"], [("users.yml", ⟨"users", ["id"], [[Cell.val (Val.int 1)]]⟩)]⟩
    [] (by decide) rfl (by decide) rfl rfl rfl rfl).1

/- ### Claim C4 -/

/-- C4 counterexample: import directory `dirA` (file `t1.yml`, table `t1`),
then directory `dirB` (file `t2.yml`). `t1` was recorded by the first
completed parse phase, yet the second load issues no `TRUNCATE t1`: the
parse phase REPLACES `finishedTablseNames` with the current batch's tables
instead of accumulating, refuting the cumulative-truncation claim. -/
theorem C4_counterexample :
    "t1" ∈ (ImportFixtures ⟨false, false, [], false, false, [], ["t1.yml"]⟩
      ⟨true, "", "", "dirA", true, "", "", 20⟩
      (some [⟨"t1.yml", false, some [[("id", Val.int 1)]]⟩])
      [(⟨"t1.yml", false, some [[("id", Val.int 1)]]⟩, ["id"])]
      ⟨[], [], []⟩ []).g.finishedTablseNames ∧
    Stmt.truncate "t1" ∉ (ImportFixtures ⟨false, false, [], false, false, [],
        ["t1.yml", "t2.yml"]⟩
      ⟨true, "", "", "dirB", true, "", "", 20⟩
      (some [⟨"t2.yml", false, some [[("id", Val.int 1)]]⟩])
      [(⟨"t2.yml", false, some [[("id", Val.int 1)]]⟩, ["id"])]
      (ImportFixtures ⟨false, false, [], false, false, [], ["t1.yml"]⟩
        ⟨true, "", "", "dirA", true, "", "", 20⟩
        (some [⟨"t1.yml", false, some [[("id", Val.int 1)]]⟩])
        [(⟨"t1.yml", false, some [[("id", Val.int 1)]]⟩, ["id"])]
        ⟨[], [], []⟩ []).g
      (ImportFixtures ⟨false, false, [], false, false, [], ["t1.yml"]⟩
        ⟨true, "", "", "dirA", true, "", "", 20⟩
        (some [⟨"t1.yml", false, some [[("id", Val.int 1)]]⟩])
        [(⟨"t1.yml", false, some [[("id", Val.int 1)]]⟩, ["id"])]
        ⟨[], [], []⟩ []).db).sql := by
  decide

/-- C4 (amended): at load time exactly the tables currently recorded in
`finishedTablseNames` are truncated — and that list is replaced by every
completed parse phase with the tables of the current batch alone, so it is
not cumulative across imports of different directories (a repeat import of
the SAME directory skips the parse and reuses the previously recorded
list). -/
theorem C4_truncation_list_replaced (env : Env) (g : GlobalState) (db : DbState)
    (h1 : env.fkDisableFails = false) (h2 : env.truncFails = [])
    (h3 : env.beginFails = false) :
    truncatesOf (loadParsedData env g db).2.2 = g.finishedTablseNames ∧
    (∀ (files : List YmlFile) (schedule : List (YmlFile × List String)) (g0 : GlobalState),
      (pushInsertQueriesFromYmlToChannel files schedule g0).g.finishedTablseNames =
        scheduleTables schedule) :=
  ⟨truncatesOf_loadParsedData g db h1 h2 h3,
    fun files schedule g0 => parse_tablesNames files schedule g0⟩

/-- C4 witness: a load over a cached table list truncates exactly it. -/
theorem C4_truncation_list_replaced_witness :
    truncatesOf (loadParsedData ⟨false, false, [], false, false, [], []⟩
      ⟨["t2"], [], []⟩ []).2.2 = ["t2"] :=
  (C4_truncation_list_replaced _ _ _ rfl rfl rfl).1

/- ### Claim C9 -/

/-- C9: the parse fan-out/fan-in is a true join — the completion count
equals the number of launched tasks (every goroutine's deferred
`wg.Done()` fires exactly once on every path), with distinct file names no
scheduled `.yml` file's batch is missing from `insertMap` when the barrier
releases, and the load phase runs against the global state produced by the
COMPLETE parse fold (all scheduled tasks applied), so no parsed batch is
lost before the tables are truncated and reloaded. -/
theorem C9_parse_join_barrier (files : List YmlFile)
    (schedule : List (YmlFile × List String)) (g : GlobalState)
    (hperm : (schedule.map Prod.fst).Perm files) :
    (pushInsertQueriesFromYmlToChannel files schedule g).doneCount =
      (pushInsertQueriesFromYmlToChannel files schedule g).launched ∧
    ((scheduleNames schedule).Nodup →
      ∀ p ∈ schedule, hasSuffix p.1.name ".yml" = true →
        mapLookup (pushInsertQueriesFromYmlToChannel files schedule g).g.insertMap p.1.name =
          some (buildFileBatch p.2 p.1)) ∧
    (∀ (env : Env) (dir : String) (db : DbState), dir ∉ g.finishedParsedDirs →
      (importYmlFixtures env dir files schedule g db).sql =
        (loadParsedData env
          { finishedTablseNames :=
              (pushInsertQueriesFromYmlToChannel files schedule g).g.finishedTablseNames
            finishedParsedDirs := g.finishedParsedDirs ++ [dir]
            insertMap := (pushInsertQueriesFromYmlToChannel files schedule g).g.insertMap }
          db).2.2) := by
  refine ⟨?_, ?_, ?_⟩
  · show (schedule.foldl parseStep _).done = files.length
    rw [parse_foldl_done]
    simpa using hperm.length_eq
  · intro hnd p hp hyml
    exact parse_insMap_mem files schedule g hnd p hp hyml
  · intro env dir db hd
    simp [importYmlFixtures, hd, parse_dirs_eq]

/-- C9 witness: a one-file schedule joins with count 1 of 1. -/
theorem C9_parse_join_barrier_witness :
    (pushInsertQueriesFromYmlToChannel [⟨"t1.yml", false, some [[("id", Val.int 1)]]⟩]
      [(⟨"t1.yml", false, some [[("id", Val.int 1)]]⟩, ["id"])] ⟨[], [], []⟩).doneCount =
    (pushInsertQueriesFromYmlToChannel [⟨"t1.yml", false, some [[("id", Val.int 1)]]⟩]
      [(⟨"t1.yml", false, some [[("id", Val.int 1)]]⟩, ["id"])] ⟨[], [], []⟩).launched :=
  (C9_parse_join_barrier _ _ _ (List.Perm.refl _)).1

/- ### Claim C10 -/

/-- C10: in one process, after importing directory A, importing a different
directory B re-executes A's cached insertion batch as well — `insertMap`
is process-global, keyed by file name and never cleared, so A's batch is
still present after B's parse and its INSERT is issued during B's load —
while the TRUNCATE statements of B's load cover exactly the tables
recorded by B's parse phase. -/
theorem C10_global_insertMap_reexecuted
    (env1 env2 : Env) (fxA fxB : Fixturer) (entriesA entriesB : List YmlFile)
    (schedA schedB : List (YmlFile × List String)) (g0 : GlobalState) (db0 : DbState)
    (p : YmlFile × List String)
    (hg0 : g0.finishedParsedDirs = [])
    (hAB : fxB.fixturesPathYml ≠ fxA.fixturesPathYml)
    (hconn1 : env1.connectFails = false) (hconn2 : env2.connectFails = false)
    (hp : p ∈ schedA) (hyml : hasSuffix p.1.name ".yml" = true)
    (hndA : (scheduleNames schedA).Nodup)
    (hdisj : p.1.name ∉ scheduleNames schedB)
    (hord : p.1.name ∈ env2.mapOrd)
    (h1 : env2.fkDisableFails = false) (h2 : env2.truncFails = [])
    (h3 : env2.beginFails = false) :
    mapLookup (ImportFixtures env1 fxA (some entriesA) schedA g0 db0).g.insertMap p.1.name =
      some (buildFileBatch p.2 p.1) ∧
    Stmt.insertRows p.1.name ∈
      (ImportFixtures env2 fxB (some entriesB) schedB
        (ImportFixtures env1 fxA (some entriesA) schedA g0 db0).g
        (ImportFixtures env1 fxA (some entriesA) schedA g0 db0).db).sql ∧
    truncatesOf
      (ImportFixtures env2 fxB (some entriesB) schedB
        (ImportFixtures env1 fxA (some entriesA) schedA g0 db0).g
        (ImportFixtures env1 fxA (some entriesA) schedA g0 db0).db).sql =
      scheduleTables schedB := by
  have hdA : fxA.fixturesPathYml ∉ g0.finishedParsedDirs := by
    rw [hg0]
    simp
  have hg1 : (ImportFixtures env1 fxA (some entriesA) schedA g0 db0).g =
      { finishedTablseNames := (pushInsertQueriesFromYmlToChannel
          (getYmlFilesList entriesA) schedA g0).g.finishedTablseNames
        finishedParsedDirs := g0.finishedParsedDirs ++ [fxA.fixturesPathYml]
        insertMap := (pushInsertQueriesFromYmlToChannel
          (getYmlFilesList entriesA) schedA g0).g.insertMap } := by
    rw [ImportFixtures_miss env1 fxA entriesA schedA g0 db0 hconn1 hdA]
  have hlook1 : mapLookup (ImportFixtures env1 fxA (some entriesA) schedA
      g0 db0).g.insertMap p.1.name = some (buildFileBatch p.2 p.1) := by
    rw [hg1]
    exact parse_insMap_mem (getYmlFilesList entriesA) schedA g0 hndA p hp hyml
  have hdB : fxB.fixturesPathYml ∉
      (ImportFixtures env1 fxA (some entriesA) schedA g0 db0).g.finishedParsedDirs := by
    rw [hg1]
    simp [hg0, hAB]
  have hsql : (ImportFixtures env2 fxB (some entriesB) schedB
      (ImportFixtures env1 fxA (some entriesA) schedA g0 db0).g
      (ImportFixtures env1 fxA (some entriesA) schedA g0 db0).db).sql =
      (loadParsedData env2
        { finishedTablseNames := (pushInsertQueriesFromYmlToChannel
            (getYmlFilesList entriesB) schedB
            (ImportFixtures env1 fxA (some entriesA) schedA g0 db0).g).g.finishedTablseNames
          finishedParsedDirs :=
            (ImportFixtures env1 fxA (some entriesA) schedA
              g0 db0).g.finishedParsedDirs ++ [fxB.fixturesPathYml]
          insertMap := (pushInsertQueriesFromYmlToChannel
            (getYmlFilesList entriesB) schedB
            (ImportFixtures env1 fxA (some entriesA) schedA g0 db0).g).g.insertMap }
        (ImportFixtures env1 fxA (some entriesA) schedA g0 db0).db).2.2 := by
    rw [ImportFixtures_miss env2 fxB entriesB schedB _ _ hconn2 hdB]
  have hlook2 : mapLookup (pushInsertQueriesFromYmlToChannel (getYmlFilesList entriesB)
      schedB (ImportFixtures env1 fxA (some entriesA) schedA
        g0 db0).g).g.insertMap p.1.name = some (buildFileBatch p.2 p.1) := by
    rw [parse_insMap_not_mem _ schedB _ p.1.name hdisj]
    exact hlook1
  refine ⟨hlook1, ?_, ?_⟩
  · rw [hsql]
    refine insertRows_mem_loadParsedData _ _ h1 h2 h3 p.1.name hord ?_
    show (mapLookup _ _).isSome = true
    rw [hlook2]
    rfl
  · rw [hsql, truncatesOf_loadParsedData _ _ h1 h2 h3]
    exact parse_tablesNames (getYmlFilesList entriesB) schedB _

/-- C10 witness: directory A with `t1.yml`, then directory B with
`t2.yml` — A's batch stays cached. -/
theorem C10_global_insertMap_reexecuted_witness :
    mapLookup (ImportFixtures ⟨false, false, [], false, false, [], ["t1.yml"]⟩
      ⟨true, "", "", "dirA", true, "", "", 20⟩
      (some [⟨"t1.yml", false, some [[("id", Val.int 1)]]⟩])
      [(⟨"t1.yml", false, some [[("id", Val.int 1)]]⟩, ["id"])]
      ⟨[], [], []⟩ []).g.insertMap "t1.yml" =
      some (buildFileBatch ["id"] ⟨"t1.yml", false, some [[("id", Val.int 1)]]⟩) :=
  (C10_global_insertMap_reexecuted
    ⟨false, false, [], false, false, [], ["t1.yml"]⟩
    ⟨false, false, [], false, false, [], ["t1.yml", "t2.yml"]⟩
    ⟨true, "", "", "dirA", true, "", "", 20⟩
    ⟨true, "", "", "dirB", true, "", "", 20⟩
    [⟨"t1.yml", false, some [[("id", Val.int 1)]]⟩]
    [⟨"t2.yml", false, some [[("id", Val.int 1)]]⟩]
    [(⟨"t1.yml", false, some [[("id", Val.int 1)]]⟩, ["id"])]
    [(⟨"t2.yml", false, some [[("id", Val.int 1)]]⟩, ["id"])]
    ⟨[], [], []⟩ [] (⟨"t1.yml", false, some [[("id", Val.int 1)]]⟩, ["id"])
    rfl (by decide) rfl rfl (by decide) (by decide) (by decide) (by decide)
    (by decide) rfl rfl rfl).1
